import Mathlib

/-!
Shallow embedding of the semantic response cache of the Gema-automation
repository and proofs of the specification claims about it.

Embedded code:
- agent/middleware/key_generator.py  (SmartKeyGenerator, keyword lists)
- agent/middleware/cache_manager.py  (CacheManager over the SQLite table)
- agent/middleware/caching_brain.py  (CachingBrain.think and friends)
- agent/brain.py                     (the ThinkResult dataclass)

Modelling choices, stated once:
- Python strings are lists of characters; `str.lower` is modelled by
  ASCII lowercasing (every keyword in the module-level lists is already
  lower case, so keyword matching is unaffected).
- Python float confidences are exact multiples of 0.05 in the source, so
  they are modelled exactly as natural numbers in hundredths
  (100 = 1.0, 90 = 0.9, 70 = 0.7, and so on).
- Timestamps (`time.time()` floats) and TTLs are modelled as integers;
  only their ordering and addition are used by the code under study.
  The two adjacent `time.time()` calls inside one operation are modelled
  as a single instant `now` passed explicitly.
- The truncated hex digests (`sha256(...).hexdigest()[:16]`,
  `md5(...).hexdigest()[:12]`) are modelled as abstract function
  parameters, following the specification remark that the digest choice
  is not load bearing; key structure (tags, field order, separators) is
  embedded exactly.
- The SQLite table `cache_entries` is a list of rows; the PRIMARY KEY
  constraint is the `wfDB` predicate (no two rows share a key).
  `json.dumps`/`json.loads` of a ThinkResult is modelled as an identity
  embedding, with a separate constructor for stored values whose
  deserialization raises.
-/

namespace Gema

/-- Python strings, modelled as lists of characters. -/
abbrev Str := List Char

/-- Whitespace as recognised by Python `str.strip`, `str.split` and the
regex class `\s` for the inputs in scope. -/
def pySpace (c : Char) : Bool :=
  c = ' ' || c = '\t' || c = '\n' || c = '\r' || c = '\x0b' || c = '\x0c'

/-- ASCII lowercasing of one character (`str.lower`). -/
def lowerChar (c : Char) : Char :=
  if h : 65 ≤ c.toNat ∧ c.toNat ≤ 90 then
    Char.ofNatAux (c.toNat + 32) (Or.inl (by omega))
  else c

/-- `str.lower` over a whole string. -/
def lowerStr (s : Str) : Str := s.map lowerChar

/-- `leadsWith needle l` is true when `needle` occurs at the start of
`l` (helper for substring containment). -/
def leadsWith : Str → Str → Bool
  | [], _ => true
  | _ :: _, [] => false
  | p :: ps, c :: cs => decide (p = c) && leadsWith ps cs

/-- `containsSub needle haystack` models the Python substring test
`needle in haystack`. -/
def containsSub (needle : Str) : Str → Bool
  | [] => leadsWith needle []
  | c :: cs => leadsWith needle (c :: cs) || containsSub needle cs

/-- Remove the maximal run of characters satisfying `p` from the end of
the string; models `re.sub(p+ at end, empty)` on inputs with no trailing
newline, and the trailing side of `str.strip`. -/
def dropTrailing (p : Char → Bool) : Str → Str
  | [] => []
  | c :: rest =>
    match dropTrailing p rest with
    | [] => if p c then [] else [c]
    | d :: r => c :: d :: r

/-- Python `str.strip`: drop leading and trailing whitespace. -/
def pyStrip (l : Str) : Str := dropTrailing pySpace (l.dropWhile pySpace)

/-- The trailing-punctuation class `[.?!,;:]` of `normalize_query`. -/
def isPunctEnd (c : Char) : Bool :=
  c = '.' || c = '?' || c = '!' || c = ',' || c = ';' || c = ':'

/-- Replace every maximal whitespace run by a single space; the flag
records whether the previous character was part of a run already
rewritten (`re.sub` with the whitespace-run pattern and a space). -/
def collapseAux : Bool → Str → Str
  | _, [] => []
  | prevSpace, c :: rest =>
    if pySpace c then
      if prevSpace then collapseAux true rest
      else ' ' :: collapseAux true rest
    else c :: collapseAux false rest

/-- Whitespace-run collapsing over a whole string. -/
def collapseWS (l : Str) : Str := collapseAux false l

/-- Number of words of Python `str.split()` with no separator argument:
maximal non-whitespace runs. -/
def wordCountAux : Bool → Str → Nat
  | _, [] => 0
  | inWord, c :: rest =>
    if pySpace c then wordCountAux false rest
    else (if inWord then 0 else 1) + wordCountAux true rest

/-- `len(q.split())`. -/
def wordCount (l : Str) : Nat := wordCountAux false l

/-- Module-level `BLACKLIST_KEYWORDS` of key_generator.py. -/
def BLACKLIST_KEYWORDS : List Str :=
  ["mấy giờ", "thời gian", "hôm nay", "hôm qua", "bây giờ",
   "what time", "current time", "today", "now", "yesterday",
   "giá", "bitcoin", "stock", "price", "crypto", "exchange rate", "tỷ giá",
   "thời tiết", "weather", "nhiệt độ", "temperature",
   "news", "tin tức", "live", "stream", "real-time", "trending"].map String.data

/-- Module-level `PERSONAL_INDICATORS` of key_generator.py. -/
def PERSONAL_INDICATORS : List Str :=
  ["tôi", "của mình", "của tao", "tài khoản", "lịch sử", "profile",
   "my", "mine", "i ", "i\x27", "me ", "account", "history", "favorite"].map String.data

/-- Module-level `FACTUAL_INDICATORS` of key_generator.py. -/
def FACTUAL_INDICATORS : List Str :=
  ["python", "javascript", "rust", "golang", "java", "c++", "typescript",
   "function", "class", "method", "algorithm", "code", "syntax", "error",
   "html", "css", "api", "database", "sql", "json", "regex",
   "là gì", "what is", "how to", "explain", "define", "tutorial",
   "giải thích", "hướng dẫn", "cách", "làm sao", "tại sao"].map String.data

/-- One turn of the conversation history: a dict with `role` and
`content` entries. -/
structure Msg where
  role : Str
  content : Str
deriving DecidableEq

/-- The `KeyResult` dataclass of key_generator.py.  Confidence is in
hundredths (100 = 1.0). -/
structure KeyResult where
  content_key : Option Str
  context_key : Option Str
  scope : String
  confidence : Nat
deriving DecidableEq

namespace SmartKeyGenerator

/-- `SmartKeyGenerator.normalize_query`: lower case, strip surrounding
whitespace, remove one trailing punctuation run, collapse whitespace
runs. -/
def normalize_query (query : Str) : Str :=
  collapseWS (dropTrailing isPunctEnd (pyStrip (lowerStr query)))

/-- `SmartKeyGenerator.is_blacklisted`: some blacklist keyword occurs in
the lowercased query. -/
def is_blacklisted (query : Str) : Bool :=
  BLACKLIST_KEYWORDS.any (fun kw => containsSub kw (lowerStr query))

/-- Number of personal indicator keywords occurring in the lowercased
query (`personal_score` of `detect_scope`). -/
def personalScore (query : Str) : Nat :=
  (PERSONAL_INDICATORS.filter (fun ind => containsSub ind (lowerStr query))).length

/-- Number of factual indicator keywords occurring in the lowercased
query (`factual_score` of `detect_scope`). -/
def factualScore (query : Str) : Nat :=
  (FACTUAL_INDICATORS.filter (fun ind => containsSub ind (lowerStr query))).length

/-- `SmartKeyGenerator.detect_scope`, returning the scope string and the
confidence in hundredths. -/
def detect_scope (query : Str) (history : List Msg) : String × Nat :=
  if is_blacklisted query then ("blacklisted", 100)
  else
    let personal_score := personalScore query
    let factual_score := factualScore query
    let has_context := decide (history.length > 0)
    let is_short_query := decide (wordCount query ≤ 5)
    if personal_score > 0 then
      ("contextual", min (90 + personal_score * 5) 100)
    else if factual_score ≥ 2 then
      ("shared", min (70 + factual_score * 10) 100)
    else if is_short_query && has_context then
      ("contextual", 80)
    else if factual_score = 1 then
      ("shared", 60)
    else
      ("shared", 50)

/-- `SmartKeyGenerator.normalize_history_hash` with the digest function
as a parameter.  Empty history returns the literal sentinel string
`empty` without hashing, exactly as the source does. -/
def normalize_history_hash (md5_12 : Str → Str) (history_window : Nat)
    (history : List Msg) : Str :=
  if history = [] then "empty".data
  else
    let recent :=
      if history_window = 0 then history
      else history.drop (history.length - history_window)
    let role_seq := recent.map (fun msg => lowerChar (msg.role.headD '?'))
    let parts := recent.map (fun msg =>
      collapseWS (pyStrip (lowerStr (msg.content.take 20))))
    md5_12 (role_seq ++ '|' :: ((toString recent.length).data ++
      '|' :: List.intercalate ['|'] parts))

/-- `SmartKeyGenerator.generate_keys` with the two digest functions as
parameters. -/
def generate_keys (sha256_16 md5_12 : Str → Str) (history_window : Nat)
    (user_id conversation_id user_query : Str)
    (conversation_history : List Msg) (system_prompt_hash : Str) : KeyResult :=
  let normalized := normalize_query user_query
  let sc := detect_scope user_query conversation_history
  if sc.1 = "blacklisted" then
    { content_key := none, context_key := none,
      scope := sc.1, confidence := sc.2 }
  else
    let content_material := system_prompt_hash.take 8 ++ '|' :: normalized
    let content_key := "content:".data ++ sha256_16 content_material
    let history_fp := normalize_history_hash md5_12 history_window conversation_history
    let context_material :=
      user_id ++ '|' :: (conversation_id ++ '|' :: (history_fp ++ '|' :: normalized))
    let context_key := "context:".data ++ sha256_16 context_material
    { content_key := some content_key, context_key := some context_key,
      scope := sc.1, confidence := sc.2 }

end SmartKeyGenerator

/-- The `ThinkResult` dataclass of agent/brain.py.  The untyped
`tool_args` dict is modelled as an opaque association list. -/
structure ThinkResult where
  action : String
  tool_name : Option String := none
  tool_args : Option (List (String × String)) := none
  content : Str := []
deriving DecidableEq

/-- The serialized `value` column of a cache row.  `json.dumps` of a
ThinkResult is modelled as the identity embedding `json`; a stored value
whose `json.loads`/`ThinkResult(**data)` raises is `corrupt`. -/
inductive StoredValue where
  | json (r : ThinkResult)
  | corrupt (raw : Str)
deriving DecidableEq

/-- The metadata dict written by CachingBrain (`user_id`, `scope`,
truncated `query`); stored opaquely in the `metadata` column. -/
structure CacheMeta where
  user_id : Str
  scope : String
  query : Str
deriving DecidableEq

/-- One row of the SQLite table `cache_entries`. -/
structure CacheRow where
  key : Str
  value : StoredValue
  created_at : Int
  expires_at : Int
  metadata : Option CacheMeta
deriving DecidableEq

/-- The persisted table, as a list of rows. -/
abbrev CacheDB := List CacheRow

/-- The PRIMARY KEY constraint of the table: no two rows share a key. -/
def wfDB (db : CacheDB) : Prop := (db.map (fun r => r.key)).Nodup

instance (db : CacheDB) : Decidable (wfDB db) := by
  unfold wfDB; infer_instance

/-- Errors raised by the sqlite3 layer itself (connection or statement
failure).  `CacheManager.get` does not catch these. -/
inductive StorageErr where
  | ioError
deriving DecidableEq

namespace CacheManager

/-- `CacheManager.get`: look the key up, lazily delete the row when it
is expired, return `none` when deserialization of the value raises (the
only exception the source catches).  Returns the result together with
the table after the operation. -/
def get (db : CacheDB) (key : Str) (now : Int) : Option ThinkResult × CacheDB :=
  match db.find? (fun r => decide (r.key = key)) with
  | none => (none, db)
  | some row =>
    if row.expires_at < now then
      (none, db.filter (fun r => decide (r.key ≠ key)))
    else
      match row.value with
      | .json r => (some r, db)
      | .corrupt _ => (none, db)

/-- `CacheManager.get` including the sqlite3 layer: the connection and
statement calls are not wrapped in try/except in the source, so a
storage fault there propagates as an exception; only the deserialization
branch inside `get` is caught. -/
def get_attempt (fault : Bool) (db : CacheDB) (key : Str) (now : Int) :
    Except StorageErr (Option ThinkResult × CacheDB) :=
  if fault then .error .ioError else .ok (get db key now)

/-- `CacheManager.set`: refuses to cache anything but final answers,
applies the Python `ttl or self.default_ttl` default (note that a ttl of
zero is falsy and also falls back), and performs INSERT OR REPLACE with
`created_at = now` and `expires_at = now + ttl`. -/
def set (db : CacheDB) (key : Str) (result : ThinkResult) (ttl : Option Int)
    (metadata : Option CacheMeta) (default_ttl : Int) (now : Int) : CacheDB :=
  if result.action ≠ "final_answer" then db
  else
    let t := match ttl with
      | none => default_ttl
      | some v => if v = 0 then default_ttl else v
    db.filter (fun r => decide (r.key ≠ key)) ++
      [{ key := key, value := .json result, created_at := now,
         expires_at := now + t, metadata := metadata }]

/-- `CacheManager.cleanup`: bulk delete of expired rows. -/
def cleanup (db : CacheDB) (now : Int) : CacheDB :=
  db.filter (fun r => decide (¬ r.expires_at < now))

/-- Ordering of rows by creation time (the ORDER BY created_at ASC of
`prune_to_limit`; ties are broken arbitrarily by SQLite, here by list
position). -/
def createdLE (a b : CacheRow) : Prop := a.created_at ≤ b.created_at

instance : DecidableRel createdLE := fun a b =>
  inferInstanceAs (Decidable (a.created_at ≤ b.created_at))

instance : IsTotal CacheRow createdLE := ⟨fun a b => Int.le_total a.created_at b.created_at⟩

instance : IsTrans CacheRow createdLE := ⟨fun _ _ _ => Int.le_trans⟩

/-- `CacheManager.prune_to_limit`: when the row count exceeds the limit,
delete the `count - max_entries` oldest rows by `created_at`. -/
def prune_to_limit (db : CacheDB) (max_entries : Nat) : CacheDB :=
  if db.length > max_entries then
    let delete_count := db.length - max_entries
    let victims := ((db.insertionSort createdLE).take delete_count).map (fun r => r.key)
    db.filter (fun r => decide (r.key ∉ victims))
  else db

end CacheManager

/-- The mutable attributes of a CachingBrain instance relevant to
`think`, together with the shared cache table. -/
structure BrainState where
  cache : CacheDB
  user_id : Str
  conversation_id : Str
  conversation_history : List Msg
  system_prompt_hash : Str
deriving DecidableEq

/-- Outcome of one `CachingBrain.think` call: the returned ThinkResult,
the state afterwards, and whether the wrapped producer was invoked. -/
structure ThinkOutcome where
  result : ThinkResult
  state : BrainState
  called_producer : Bool
deriving DecidableEq

namespace CachingBrain

/-- `CachingBrain._call_and_record`: invoke the wrapped brain (whose
reply is the `produced` parameter) and append the user turn and the
truncated assistant turn to the conversation window. -/
def call_and_record (produced : ThinkResult) (user_request : Str)
    (st : BrainState) : ThinkResult × BrainState :=
  (produced,
   { st with conversation_history :=
      st.conversation_history ++
        [{ role := "user".data, content := user_request },
         { role := "assistant".data, content := produced.content.take 200 }] })

/-- `CachingBrain.think`: generate keys, skip the cache entirely for
blacklisted queries, probe the context key then (for shared scope) the
content key, and on a miss call the producer and apply the scope write
policy.  The wrapped brain is modelled by the `produced` parameter, the
digests and current time as in the rest of the embedding. -/
def think (sha256_16 md5_12 : Str → Str) (default_ttl : Int) (now : Int)
    (produced : ThinkResult) (st : BrainState) (user_request : Str) : ThinkOutcome :=
  let kr := SmartKeyGenerator.generate_keys sha256_16 md5_12 5 st.user_id
    st.conversation_id user_request st.conversation_history st.system_prompt_hash
  if kr.scope = "blacklisted" then
    let rs := call_and_record produced user_request st
    ⟨rs.1, rs.2, true⟩
  else
    let probeCtx :=
      match kr.context_key with
      | some ck => CacheManager.get st.cache ck now
      | none => (none, st.cache)
    match probeCtx with
    | (some v, db1) => ⟨v, { st with cache := db1 }, false⟩
    | (none, db1) =>
      let probeCnt :=
        match kr.content_key with
        | some ck =>
          if kr.scope = "shared" then CacheManager.get db1 ck now else (none, db1)
        | none => (none, db1)
      match probeCnt with
      | (some v, db2) => ⟨v, { st with cache := db2 }, false⟩
      | (none, db2) =>
        let rs := call_and_record produced user_request { st with cache := db2 }
        let result := rs.1
        let st2 := rs.2
        let db3 :=
          if result.action = "final_answer" then
            let metadata : Option CacheMeta :=
              some { user_id := st.user_id, scope := kr.scope,
                     query := user_request.take 50 }
            if kr.scope = "shared" then
              let dbA :=
                match kr.content_key with
                | some ck =>
                  CacheManager.set st2.cache ck result none metadata default_ttl now
                | none => st2.cache
              if 70 ≤ kr.confidence then
                match kr.context_key with
                | some xk => CacheManager.set dbA xk result none metadata default_ttl now
                | none => dbA
              else dbA
            else if kr.scope = "contextual" then
              match kr.context_key with
              | some xk => CacheManager.set st2.cache xk result none metadata default_ttl now
              | none => st2.cache
            else st2.cache
          else st2.cache
        ⟨result, { st2 with cache := db3 }, true⟩

end CachingBrain

/-! ### Helper lemmas -/

/-- Every blacklist keyword is already lower case, so lowercasing it is
the identity. -/
theorem blacklist_lower_fixed : ∀ kw ∈ BLACKLIST_KEYWORDS, lowerStr kw = kw := by
  decide

/-- For a non-blacklisted query, the detected scope is never the
blacklisted scope. -/
theorem detect_scope_ne_blacklisted (q : Str) (hist : List Msg)
    (h : SmartKeyGenerator.is_blacklisted q = false) :
    (SmartKeyGenerator.detect_scope q hist).1 ≠ "blacklisted" := by
  unfold SmartKeyGenerator.detect_scope
  rw [if_neg (by simp [h])]
  dsimp only
  split
  · simp
  · split
    · simp
    · split
      · simp
      · split <;> simp

/-- Deleting all rows with key `k` makes a lookup of `k` fail. -/
theorem find?_filter_self (l : CacheDB) (k : Str) :
    (l.filter (fun r => decide (r.key ≠ k))).find? (fun r => decide (r.key = k)) = none := by
  rw [List.find?_eq_none]
  intro x hx
  simp only [List.mem_filter, decide_eq_true_eq] at hx
  simp [hx.2]

/-- Deleting all rows with key `k` does not change the lookup of any
other key. -/
theorem find?_filter_other (l : CacheDB) {k k' : Str} (hne : k' ≠ k) :
    (l.filter (fun r => decide (r.key ≠ k))).find? (fun r => decide (r.key = k')) =
      l.find? (fun r => decide (r.key = k')) := by
  induction l with
  | nil => rfl
  | cons r rs ih =>
    rw [List.filter_cons]
    by_cases hr : r.key = k
    · have hnotk : ¬ r.key = k' := fun hh => hne (hh ▸ hr)
      rw [if_neg (by simp [hr]), ih, List.find?_cons_of_neg rs (by simp [hnotk])]
    · by_cases hk : r.key = k'
      · rw [if_pos (by simp [hr]),
          List.find?_cons_of_pos _ (by simp [hk]),
          List.find?_cons_of_pos rs (by simp [hk])]
      · rw [if_pos (by simp [hr]),
          List.find?_cons_of_neg _ (by simp [hk]),
          List.find?_cons_of_neg rs (by simp [hk]), ih]

/-! ### Claim C1 -/

/-- C1: for every query containing a blacklist keyword as a
case-insensitive substring and for every conversation history,
detect_scope returns scope blacklisted with confidence exactly 1.0, and
generate_keys returns a KeyResult with no content key and no context
key. -/
theorem C1_blacklist_no_keys (sha256_16 md5_12 : Str → Str) (hw : Nat)
    (user_id conversation_id system_prompt_hash q : Str) (history : List Msg)
    (h : ∃ kw ∈ BLACKLIST_KEYWORDS, containsSub (lowerStr kw) (lowerStr q) = true) :
    SmartKeyGenerator.detect_scope q history = ("blacklisted", 100) ∧
    (SmartKeyGenerator.generate_keys sha256_16 md5_12 hw user_id conversation_id q
      history system_prompt_hash).content_key = none ∧
    (SmartKeyGenerator.generate_keys sha256_16 md5_12 hw user_id conversation_id q
      history system_prompt_hash).context_key = none := by
  obtain ⟨kw, hkw, hsub⟩ := h
  have hbl : SmartKeyGenerator.is_blacklisted q = true := by
    unfold SmartKeyGenerator.is_blacklisted
    rw [List.any_eq_true]
    exact ⟨kw, hkw, (blacklist_lower_fixed kw hkw) ▸ hsub⟩
  have hscope : SmartKeyGenerator.detect_scope q history = ("blacklisted", 100) := by
    unfold SmartKeyGenerator.detect_scope
    rw [if_pos hbl]
  refine ⟨hscope, ?_, ?_⟩ <;>
    · unfold SmartKeyGenerator.generate_keys
      rw [hscope]
      rfl

/-- C1 witness: concrete instance at the query `What TIME is it?`. -/
theorem C1_blacklist_no_keys_witness :
    (∃ kw ∈ BLACKLIST_KEYWORDS,
      containsSub (lowerStr kw) (lowerStr "What TIME is it?".data) = true) ∧
    SmartKeyGenerator.detect_scope "What TIME is it?".data [] = ("blacklisted", 100) ∧
    (SmartKeyGenerator.generate_keys id id 5 "u".data "c".data "What TIME is it?".data
      [] "f".data).content_key = none ∧
    (SmartKeyGenerator.generate_keys id id 5 "u".data "c".data "What TIME is it?".data
      [] "f".data).context_key = none :=
  ⟨by decide,
   (C1_blacklist_no_keys id id 5 "u".data "c".data "f".data _ [] (by decide)).1,
   (C1_blacklist_no_keys id id 5 "u".data "c".data "f".data _ [] (by decide)).2.1,
   (C1_blacklist_no_keys id id 5 "u".data "c".data "f".data _ [] (by decide)).2.2⟩

/-! ### Claim C7 -/

/-- The ordered decision list of specification section 4.1 (rules 2 to
6), stated from the wording of the specification, for comparison with
the source function detect_scope. -/
def specScopeDecision (q : Str) (history : List Msg) : String × Nat :=
  if 0 < SmartKeyGenerator.personalScore q then
    ("contextual", min (90 + SmartKeyGenerator.personalScore q * 5) 100)
  else if 2 ≤ SmartKeyGenerator.factualScore q then
    ("shared", min (70 + SmartKeyGenerator.factualScore q * 10) 100)
  else if wordCount q ≤ 5 ∧ history ≠ [] then
    ("contextual", 80)
  else if SmartKeyGenerator.factualScore q = 1 then
    ("shared", 60)
  else
    ("shared", 50)

/-- C7: for every non-blacklisted query and history, detect_scope agrees
with the ordered decision list of the specification: personal match
gives (contextual, min(0.9 + 0.05 per match, 1.0)); otherwise two or
more factual matches give (shared, min(0.7 + 0.1 per match, 1.0));
otherwise a query of at most five whitespace-separated tokens with
non-empty history gives (contextual, 0.8); otherwise exactly one factual
match gives (shared, 0.6); otherwise (shared, 0.5). -/
theorem C7_decision_list (q : Str) (hist : List Msg)
    (h : SmartKeyGenerator.is_blacklisted q = false) :
    SmartKeyGenerator.detect_scope q hist = specScopeDecision q hist := by
  unfold SmartKeyGenerator.detect_scope specScopeDecision
  rw [if_neg (by simp [h])]
  have hctx : (decide (wordCount q ≤ 5) && decide (hist.length > 0)) = true ↔
      (wordCount q ≤ 5 ∧ hist ≠ []) := by
    simp [List.length_pos]
  dsimp only
  by_cases h1 : 0 < SmartKeyGenerator.personalScore q
  · rw [if_pos h1, if_pos h1]
  · rw [if_neg h1, if_neg h1]
    by_cases h2 : 2 ≤ SmartKeyGenerator.factualScore q
    · rw [if_pos h2, if_pos h2]
    · rw [if_neg h2, if_neg h2]
      by_cases h3 : wordCount q ≤ 5 ∧ hist ≠ []
      · rw [if_pos (hctx.mpr h3), if_pos h3]
      · rw [if_neg (fun hb => h3 (hctx.mp hb)), if_neg h3]

/-- C7 witness: concrete instance at the one-factual-keyword query
`python` with empty history. -/
theorem C7_decision_list_witness :
    SmartKeyGenerator.is_blacklisted "python".data = false ∧
    SmartKeyGenerator.detect_scope "python".data [] =
      specScopeDecision "python".data [] :=
  ⟨by decide, C7_decision_list "python".data [] (by decide)⟩

/-- Splitting at a separator character is unambiguous when the part
before the separator cannot contain it. -/
theorem append_pipe_cancel : ∀ (a b x y : Str), '|' ∉ a → '|' ∉ b →
    a ++ '|' :: x = b ++ '|' :: y → a = b ∧ x = y := by
  intro a
  induction a with
  | nil =>
    intro b x y _ hb h
    cases b with
    | nil => simpa using h
    | cons d bs =>
      simp only [List.nil_append, List.cons_append, List.cons.injEq] at h
      exact (hb (by rw [h.1]; exact List.mem_cons_self _ _)).elim
  | cons c as ih =>
    intro b x y ha hb h
    cases b with
    | nil =>
      simp only [List.cons_append, List.nil_append, List.cons.injEq] at h
      exact (ha (by rw [h.1]; exact List.mem_cons_self _ _)).elim
    | cons d bs =>
      simp only [List.cons_append, List.cons.injEq] at h
      obtain ⟨hcd, hrest⟩ := h
      have ha2 : '|' ∉ as := fun hm => ha (List.mem_cons_of_mem _ hm)
      have hb2 : '|' ∉ bs := fun hm => hb (List.mem_cons_of_mem _ hm)
      obtain ⟨h1, h2⟩ := ih bs x y ha2 hb2 hrest
      exact ⟨by rw [hcd, h1], h2⟩

/-- When the detected scope is not the blacklisted one, generate_keys
produces exactly the two tagged digests of the source key formulas. -/
theorem generate_keys_scope_open (sha256_16 md5_12 : Str → Str) (hw : Nat)
    (uid cid q : Str) (hist : List Msg) (sp : Str)
    (hd : ¬ (SmartKeyGenerator.detect_scope q hist).1 = "blacklisted") :
    SmartKeyGenerator.generate_keys sha256_16 md5_12 hw uid cid q hist sp =
      { content_key := some ("content:".data ++
          sha256_16 (sp.take 8 ++ '|' :: SmartKeyGenerator.normalize_query q)),
        context_key := some ("context:".data ++
          sha256_16 (uid ++ '|' :: (cid ++ '|' ::
            (SmartKeyGenerator.normalize_history_hash md5_12 hw hist ++
              '|' :: SmartKeyGenerator.normalize_query q)))),
        scope := (SmartKeyGenerator.detect_scope q hist).1,
        confidence := (SmartKeyGenerator.detect_scope q hist).2 } := by
  simp only [SmartKeyGenerator.generate_keys]
  rw [if_neg hd]

/-- The content tag and the context tag make content keys and context
keys always distinct, whatever the digests are. -/
theorem content_tag_ne_context_tag (a b : Str) :
    ("content:".data ++ a) ≠ ("context:".data ++ b) := by
  intro hEq
  have e1 : "content:".data =
      'c' :: 'o' :: 'n' :: 't' :: 'e' :: 'n' :: 't' :: ':' :: ([] : Str) := rfl
  have e2 : "context:".data =
      'c' :: 'o' :: 'n' :: 't' :: 'e' :: 'x' :: 't' :: ':' :: ([] : Str) := rfl
  rw [e1, e2] at hEq
  simp at hEq

/-! ### Claim C5 -/

/-- C5 counterexample: context key material joins the identity fields
with a pipe separator, so identities that differ only in how a pipe
splits them collide: user `a` in conversation `b|x` and user `a|b` in
conversation `x` obtain the same context key (even with an injective
digest, here the identity function), although the claim promises
different context keys for every different identity pair. -/
theorem C5_identity_pipe_counterexample :
    (("a".data, "b|x".data) ≠ ("a|b".data, "x".data)) ∧
    SmartKeyGenerator.is_blacklisted "css".data = false ∧
    (SmartKeyGenerator.generate_keys id id 5 "a".data "b|x".data "css".data []
      "".data).context_key =
      (SmartKeyGenerator.generate_keys id id 5 "a|b".data "x".data "css".data []
        "".data).context_key ∧
    (SmartKeyGenerator.generate_keys id id 5 "a".data "b|x".data "css".data []
      "".data).content_key =
      (SmartKeyGenerator.generate_keys id id 5 "a|b".data "x".data "css".data []
        "".data).content_key := by
  decide

/-- C5 amended: for identical query, history and system prompt
fingerprint, and identities free of the pipe separator character, two
different (userId, conversationId) pairs produce the same content key
(identity never enters the content material) and, for an injective
digest, different context keys; both keys are present since the query is
not blacklisted. -/
theorem C5_content_shared_context_distinct (h g : Str → Str)
    (hinj : Function.Injective h) (u1 c1 u2 c2 q fp : Str) (hist : List Msg)
    (hu1 : '|' ∉ u1) (hc1 : '|' ∉ c1) (hu2 : '|' ∉ u2) (hc2 : '|' ∉ c2)
    (hne : (u1, c1) ≠ (u2, c2))
    (hnb : SmartKeyGenerator.is_blacklisted q = false) :
    (SmartKeyGenerator.generate_keys h g 5 u1 c1 q hist fp).content_key =
      (SmartKeyGenerator.generate_keys h g 5 u2 c2 q hist fp).content_key ∧
    (SmartKeyGenerator.generate_keys h g 5 u1 c1 q hist fp).content_key ≠ none ∧
    (SmartKeyGenerator.generate_keys h g 5 u1 c1 q hist fp).context_key ≠
      (SmartKeyGenerator.generate_keys h g 5 u2 c2 q hist fp).context_key := by
  rw [generate_keys_scope_open h g 5 u1 c1 q hist fp
      (detect_scope_ne_blacklisted q hist hnb),
    generate_keys_scope_open h g 5 u2 c2 q hist fp
      (detect_scope_ne_blacklisted q hist hnb)]
  refine ⟨rfl, by simp, ?_⟩
  intro hEq
  simp only [Option.some.injEq] at hEq
  have hm := hinj (List.append_cancel_left hEq)
  obtain ⟨hu, hrest⟩ := append_pipe_cancel u1 u2 _ _ hu1 hu2 hm
  obtain ⟨hc, -⟩ := append_pipe_cancel c1 c2 _ _ hc1 hc2 hrest
  exact hne (by rw [hu, hc])

/-- C5 witness: users alice and bob in the same conversation, same
non-blacklisted query, identity digest. -/
theorem C5_content_shared_context_distinct_witness :
    ('|' ∉ "alice".data) ∧ ('|' ∉ "conv".data) ∧ ('|' ∉ "bob".data) ∧
    (("alice".data, "conv".data) ≠ ("bob".data, "conv".data)) ∧
    SmartKeyGenerator.is_blacklisted "css".data = false ∧
    (SmartKeyGenerator.generate_keys id id 5 "alice".data "conv".data "css".data []
      "".data).content_key =
      (SmartKeyGenerator.generate_keys id id 5 "bob".data "conv".data "css".data []
        "".data).content_key ∧
    (SmartKeyGenerator.generate_keys id id 5 "alice".data "conv".data "css".data []
      "".data).context_key ≠
      (SmartKeyGenerator.generate_keys id id 5 "bob".data "conv".data "css".data []
        "".data).context_key :=
  ⟨by decide, by decide, by decide, by decide, by decide,
   (C5_content_shared_context_distinct id id (fun a b hab => hab)
      "alice".data "conv".data "bob".data "conv".data "css".data "".data []
      (by decide) (by decide) (by decide) (by decide) (by decide) (by decide)).1,
   (C5_content_shared_context_distinct id id (fun a b hab => hab)
      "alice".data "conv".data "bob".data "conv".data "css".data "".data []
      (by decide) (by decide) (by decide) (by decide) (by decide) (by decide)).2.2⟩

/-! ### Claim C3 -/

/-- C3: a `get` on a key whose row is expired at call time deletes the
row and returns nothing; the expired value is never returned. -/
theorem C3_lazy_expiry (db : CacheDB) (k : Str) (now : Int) (row : CacheRow)
    (hfind : db.find? (fun r => decide (r.key = k)) = some row)
    (hexp : row.expires_at < now) :
    (CacheManager.get db k now).1 = none ∧
    (CacheManager.get db k now).2 = db.filter (fun r => decide (r.key ≠ k)) ∧
    (CacheManager.get db k now).2.find? (fun r => decide (r.key = k)) = none := by
  have hg : CacheManager.get db k now = (none, db.filter (fun r => decide (r.key ≠ k))) := by
    simp only [CacheManager.get, hfind]
    rw [if_pos hexp]
  rw [hg]
  exact ⟨rfl, rfl, find?_filter_self db k⟩

/-- C3 witness: concrete store with one row expired at time 11. -/
theorem C3_lazy_expiry_witness :
    ([({ key := "k".data, value := .json { action := "final_answer", content := "v".data },
         created_at := 0, expires_at := 10, metadata := none } : CacheRow)].find?
      (fun r => decide (r.key = "k".data)) =
      some { key := "k".data, value := .json { action := "final_answer", content := "v".data },
             created_at := 0, expires_at := 10, metadata := none }) ∧
    ((10 : Int) < 11) ∧
    (CacheManager.get
      [{ key := "k".data, value := .json { action := "final_answer", content := "v".data },
         created_at := 0, expires_at := 10, metadata := none }] "k".data 11).1 = none ∧
    (CacheManager.get
      [{ key := "k".data, value := .json { action := "final_answer", content := "v".data },
         created_at := 0, expires_at := 10, metadata := none }] "k".data 11).2 = [] :=
  ⟨by decide, by decide,
   (C3_lazy_expiry
      [{ key := "k".data, value := .json { action := "final_answer", content := "v".data },
         created_at := 0, expires_at := 10, metadata := none }] "k".data 11
      { key := "k".data, value := .json { action := "final_answer", content := "v".data },
        created_at := 0, expires_at := 10, metadata := none }
      (by decide) (by decide)).1,
   ((C3_lazy_expiry
      [{ key := "k".data, value := .json { action := "final_answer", content := "v".data },
         created_at := 0, expires_at := 10, metadata := none }] "k".data 11
      { key := "k".data, value := .json { action := "final_answer", content := "v".data },
        created_at := 0, expires_at := 10, metadata := none }
      (by decide) (by decide)).2.1).trans (by decide)⟩

/-! ### Claim C4 -/

/-- C4 counterexample: `set` silently refuses any payload whose action
is not final_answer, so a set of a tool_call payload followed by a get
returns nothing, not the stored value, contradicting the claim for
arbitrary action discriminators. -/
theorem C4_set_get_counterexample :
    (CacheManager.get
      (CacheManager.set [] "k".data
        { action := "tool_call", tool_name := some "tap", tool_args := none, content := [] }
        (some 100) none 86400 0)
      "k".data 1).1 ≠
    some { action := "tool_call", tool_name := some "tap", tool_args := none, content := [] } := by
  decide

/-- C4 amended: for every key, every payload whose action is
final_answer, and every positive ttl, `set` followed by `get` before
expiry returns the stored value; `set` is insert-or-replace, stores the
row with `expiresAt = now + ttl`, and leaves every other key unchanged.
Payloads with any other action are not stored at all. -/
theorem C4_set_then_get (db : CacheDB) (k : Str) (r : ThinkResult) (ttlv : Int)
    (md : Option CacheMeta) (dttl now nowR : Int)
    (hfa : r.action = "final_answer") (hpos : 0 < ttlv)
    (hbefore : ¬ now + ttlv < nowR) :
    (CacheManager.get (CacheManager.set db k r (some ttlv) md dttl now) k nowR).1 = some r ∧
    (CacheManager.set db k r (some ttlv) md dttl now).find?
        (fun row => decide (row.key = k)) =
      some { key := k, value := .json r, created_at := now,
             expires_at := now + ttlv, metadata := md } ∧
    ∀ k', k' ≠ k →
      (CacheManager.set db k r (some ttlv) md dttl now).find?
          (fun row => decide (row.key = k')) =
        db.find? (fun row => decide (row.key = k')) := by
  have hset : CacheManager.set db k r (some ttlv) md dttl now =
      db.filter (fun row => decide (row.key ≠ k)) ++
        [{ key := k, value := .json r, created_at := now,
           expires_at := now + ttlv, metadata := md }] := by
    unfold CacheManager.set
    rw [if_neg (by simp [hfa])]
    dsimp only
    rw [if_neg (by omega : ¬ ttlv = 0)]
  have hfind : (CacheManager.set db k r (some ttlv) md dttl now).find?
      (fun row => decide (row.key = k)) =
      some { key := k, value := .json r, created_at := now,
             expires_at := now + ttlv, metadata := md } := by
    rw [hset, List.find?_append, find?_filter_self, Option.none_or,
      List.find?_cons_of_pos _ (by simp)]
  refine ⟨?_, hfind, ?_⟩
  · simp only [CacheManager.get, hfind]
    rw [if_neg hbefore]
  · intro k' hk'
    rw [hset, List.find?_append, find?_filter_other db hk']
    simp [Ne.symm hk']

/-- C4 witness: concrete store-then-read round trip. -/
theorem C4_set_then_get_witness :
    (({ action := "final_answer", content := "v".data } : ThinkResult).action =
      "final_answer") ∧
    ((0 : Int) < 10) ∧ (¬ (5 : Int) + 10 < 7) ∧
    (CacheManager.get
      (CacheManager.set [] "k".data { action := "final_answer", content := "v".data }
        (some 10) none 86400 5) "k".data 7).1 =
      some { action := "final_answer", content := "v".data } :=
  ⟨by decide, by decide, by decide,
   (C4_set_then_get [] "k".data { action := "final_answer", content := "v".data }
      10 none 86400 5 7 (by decide) (by decide) (by decide)).1⟩

/-! ### Claim C8 -/

/-- C8: prune_to_limit leaves exactly `min N priorCount` rows, keeps
only rows that were already present, removes only rows whose creation
time is at most that of every surviving row (the oldest ones), and
deletes nothing when the count is within the limit. -/
theorem C8_prune_to_limit_oldest (db : CacheDB) (N : Nat) (hwf : wfDB db) :
    (CacheManager.prune_to_limit db N).length = min N db.length ∧
    (∀ r ∈ CacheManager.prune_to_limit db N, r ∈ db) ∧
    (∀ r ∈ db, r ∉ CacheManager.prune_to_limit db N →
      ∀ rk ∈ CacheManager.prune_to_limit db N, r.created_at ≤ rk.created_at) ∧
    (db.length ≤ N → CacheManager.prune_to_limit db N = db) := by
  have hwf2 : (db.map (fun r => r.key)).Nodup := hwf
  by_cases hlen : db.length > N
  · obtain ⟨sorted, hS⟩ : ∃ s, db.insertionSort CacheManager.createdLE = s := ⟨_, rfl⟩
    obtain ⟨dc, hdc⟩ : ∃ d, db.length - N = d := ⟨_, rfl⟩
    obtain ⟨victims, hV⟩ : ∃ v, (sorted.take dc).map (fun r => r.key) = v := ⟨_, rfl⟩
    have hperm : sorted.Perm db := by rw [← hS]; exact List.perm_insertionSort _ db
    have hsorted : List.Sorted CacheManager.createdLE sorted := by
      rw [← hS]; exact List.sorted_insertionSort _ db
    have hp : CacheManager.prune_to_limit db N =
        db.filter (fun r => decide (r.key ∉ victims)) := by
      unfold CacheManager.prune_to_limit
      rw [if_pos hlen, hS, hdc]
      simp only [hV]
    have htake_f : (sorted.take dc).filter (fun r => decide (r.key ∉ victims)) = [] := by
      rw [List.filter_eq_nil_iff]
      intro a ha
      simp only [decide_eq_true_eq, Decidable.not_not]
      rw [← hV]
      exact List.mem_map_of_mem _ ha
    have hnodupS : (sorted.map (fun r => r.key)).Nodup :=
      ((hperm.map (fun r => r.key)).nodup_iff).mpr hwf2
    have hdisj : ∀ a ∈ sorted.drop dc, a.key ∉ victims := by
      intro a ha hmem
      rw [← hV] at hmem
      have hnd : ((sorted.take dc).map (fun r => r.key) ++
          (sorted.drop dc).map (fun r => r.key)).Nodup := by
        rw [← List.map_append, List.take_append_drop]
        exact hnodupS
      exact (List.nodup_append.mp hnd).2.2 hmem (List.mem_map_of_mem _ ha)
    have hdrop_f : (sorted.drop dc).filter (fun r => decide (r.key ∉ victims)) =
        sorted.drop dc := by
      rw [List.filter_eq_self]
      intro a ha
      simpa using hdisj a ha
    have hfilter_sorted : sorted.filter (fun r => decide (r.key ∉ victims)) =
        sorted.drop dc := by
      have h1 : sorted.filter (fun r => decide (r.key ∉ victims)) =
          (sorted.take dc ++ sorted.drop dc).filter (fun r => decide (r.key ∉ victims)) := by
        rw [List.take_append_drop]
      rw [h1, List.filter_append, htake_f, hdrop_f, List.nil_append]
    have hpermF : (db.filter (fun r => decide (r.key ∉ victims))).Perm (sorted.drop dc) := by
      rw [← hfilter_sorted]
      exact (hperm.filter _).symm
    have hlenF : (db.filter (fun r => decide (r.key ∉ victims))).length = db.length - dc := by
      rw [hpermF.length_eq, List.length_drop, hperm.length_eq]
    refine ⟨?_, ?_, ?_, ?_⟩
    · rw [hp, hlenF, ← hdc]
      omega
    · intro r hr
      rw [hp] at hr
      exact (List.mem_filter.mp hr).1
    · intro r hr hnot rk hrk
      rw [hp] at hnot hrk
      have hPr : ¬ (decide (r.key ∉ victims) = true) :=
        fun hPr => hnot (List.mem_filter.mpr ⟨hr, hPr⟩)
      have hkey : r.key ∈ victims := by simpa using hPr
      rw [← hV] at hkey
      obtain ⟨a, ha_take, ha_key⟩ := List.mem_map.mp hkey
      have ha_db : a ∈ db := hperm.mem_iff.mp (List.mem_of_mem_take ha_take)
      have ha_eq : a = r := List.inj_on_of_nodup_map hwf2 ha_db hr ha_key
      have hrk_db : rk ∈ db := (List.mem_filter.mp hrk).1
      have hrk_P : rk.key ∉ victims := by
        have hh := (List.mem_filter.mp hrk).2
        simpa using hh
      have hrk_sorted : rk ∈ sorted := hperm.mem_iff.mpr hrk_db
      have hrk_drop : rk ∈ sorted.drop dc := by
        have hsp : rk ∈ sorted.take dc ++ sorted.drop dc := by
          rw [List.take_append_drop]
          exact hrk_sorted
        rcases List.mem_append.mp hsp with htk | hdk
        · exact absurd (hV ▸ List.mem_map_of_mem (fun r => r.key) htk) hrk_P
        · exact hdk
      have hpw : List.Pairwise CacheManager.createdLE
          (sorted.take dc ++ sorted.drop dc) := by
        rw [List.take_append_drop]
        exact hsorted
      exact (List.pairwise_append.mp hpw).2.2 r (ha_eq ▸ ha_take) rk hrk_drop
    · intro hNle
      omega
  · have hp : CacheManager.prune_to_limit db N = db := by
      unfold CacheManager.prune_to_limit
      rw [if_neg hlen]
    rw [hp]
    refine ⟨?_, fun r hr => hr, fun r hr hnot rk hrk => (hnot hr).elim, fun _ => rfl⟩
    omega

/-- C8 witness: three rows pruned to the single newest one. -/
theorem C8_prune_to_limit_oldest_witness :
    wfDB [{ key := "a".data, value := .json { action := "final_answer", content := [] },
            created_at := 5, expires_at := 100, metadata := none },
          { key := "b".data, value := .json { action := "final_answer", content := [] },
            created_at := 1, expires_at := 100, metadata := none },
          { key := "c".data, value := .json { action := "final_answer", content := [] },
            created_at := 3, expires_at := 100, metadata := none }] ∧
    (CacheManager.prune_to_limit
      [{ key := "a".data, value := .json { action := "final_answer", content := [] },
         created_at := 5, expires_at := 100, metadata := none },
       { key := "b".data, value := .json { action := "final_answer", content := [] },
         created_at := 1, expires_at := 100, metadata := none },
       { key := "c".data, value := .json { action := "final_answer", content := [] },
         created_at := 3, expires_at := 100, metadata := none }] 1).length =
      min 1 3 :=
  ⟨by decide,
   (C8_prune_to_limit_oldest
      [{ key := "a".data, value := .json { action := "final_answer", content := [] },
         created_at := 5, expires_at := 100, metadata := none },
       { key := "b".data, value := .json { action := "final_answer", content := [] },
         created_at := 1, expires_at := 100, metadata := none },
       { key := "c".data, value := .json { action := "final_answer", content := [] },
         created_at := 3, expires_at := 100, metadata := none }] 1 (by decide)).1⟩

/-! ### Claim C9 -/

/-- C9 counterexample: a fault in the sqlite3 layer during get is not
caught by the source (only deserialization is inside try/except), so it
propagates as an exception instead of producing a miss. -/
theorem C9_io_error_counterexample :
    CacheManager.get_attempt true [] "k".data 0 = Except.error StorageErr.ioError ∧
    CacheManager.get_attempt true [] "k".data 0 ≠ Except.ok (none, []) :=
  ⟨rfl, fun h => Except.noConfusion h⟩

/-- C9 amended: deserialization failure of a cached value is caught and
reported as a miss with the store unchanged (fail-open), while an
sqlite3-layer fault propagates as an exception. -/
theorem C9_deserialization_fail_open (db : CacheDB) (k : Str) (now : Int)
    (row : CacheRow) (raw : Str)
    (hfind : db.find? (fun r => decide (r.key = k)) = some row)
    (hval : row.value = .corrupt raw)
    (hnotexp : ¬ row.expires_at < now) :
    CacheManager.get_attempt false db k now = Except.ok (none, db) := by
  simp only [CacheManager.get_attempt, CacheManager.get, hfind, Bool.false_eq_true,
    if_false]
  rw [if_neg hnotexp, hval]

/-- C9 witness: concrete store with one corrupt row. -/
theorem C9_deserialization_fail_open_witness :
    ([({ key := "k".data, value := .corrupt "oops".data, created_at := 0,
         expires_at := 10, metadata := none } : CacheRow)].find?
      (fun r => decide (r.key = "k".data)) =
      some { key := "k".data, value := .corrupt "oops".data, created_at := 0,
             expires_at := 10, metadata := none }) ∧
    (({ key := "k".data, value := .corrupt "oops".data, created_at := 0,
        expires_at := 10, metadata := none } : CacheRow).value = .corrupt "oops".data) ∧
    (¬ (10 : Int) < 5) ∧
    CacheManager.get_attempt false
      [{ key := "k".data, value := .corrupt "oops".data, created_at := 0,
         expires_at := 10, metadata := none }] "k".data 5 =
      Except.ok (none,
        [{ key := "k".data, value := .corrupt "oops".data, created_at := 0,
           expires_at := 10, metadata := none }]) :=
  ⟨by decide, by decide, by decide,
   C9_deserialization_fail_open
     [{ key := "k".data, value := .corrupt "oops".data, created_at := 0,
        expires_at := 10, metadata := none }] "k".data 5
     { key := "k".data, value := .corrupt "oops".data, created_at := 0,
       expires_at := 10, metadata := none } "oops".data
     (by decide) (by decide) (by decide)⟩

/-! ### Middleware evaluation lemmas -/

/-- A get on an absent key is a miss that leaves the table unchanged. -/
theorem get_absent (db : CacheDB) (k : Str) (now : Int)
    (habs : db.find? (fun r => decide (r.key = k)) = none) :
    CacheManager.get db k now = (none, db) := by
  simp only [CacheManager.get, habs]

/-- Every think call either returns from cache without touching the
conversation state, or invokes the producer and appends exactly the two
turns of the exchange to the window. -/
theorem think_cases (h g : Str → Str) (dttl now : Int) (produced : ThinkResult)
    (st : BrainState) (q : Str) :
    (∃ v db, CachingBrain.think h g dttl now produced st q =
      { result := v, state := { st with cache := db }, called_producer := false }) ∨
    (∃ db3, CachingBrain.think h g dttl now produced st q =
      { result := produced,
        state := { st with
                   cache := db3,
                   conversation_history := st.conversation_history ++
                     [{ role := "user".data, content := q },
                      { role := "assistant".data,
                        content := produced.content.take 200 }] },
        called_producer := true }) := by
  unfold CachingBrain.think CachingBrain.call_and_record
  dsimp only
  split
  · right; exact ⟨st.cache, rfl⟩
  · split
    · left; exact ⟨_, _, rfl⟩
    · split
      · left; exact ⟨_, _, rfl⟩
      · right; exact ⟨_, rfl⟩


/-- A final-answer set with the default ttl is delete-then-append. -/
theorem set_final_eq (db : CacheDB) (k : Str) (r : ThinkResult) (md : Option CacheMeta)
    (dttl now : Int) (hfa : r.action = "final_answer") :
    CacheManager.set db k r none md dttl now =
      db.filter (fun row => decide (row.key ≠ k)) ++
        [{ key := k, value := .json r, created_at := now, expires_at := now + dttl,
           metadata := md }] := by
  unfold CacheManager.set
  rw [if_neg (by simp [hfa])]

/-- After a final-answer set, the key looks up the fresh row. -/
theorem find?_set_same (db : CacheDB) (k : Str) (r : ThinkResult) (md : Option CacheMeta)
    (dttl now : Int) (hfa : r.action = "final_answer") :
    (CacheManager.set db k r none md dttl now).find? (fun row => decide (row.key = k)) =
      some { key := k, value := .json r, created_at := now, expires_at := now + dttl,
             metadata := md } := by
  rw [set_final_eq db k r md dttl now hfa, List.find?_append, find?_filter_self,
    Option.none_or, List.find?_cons_of_pos _ (by simp)]

/-- A final-answer set leaves every other key unchanged. -/
theorem find?_set_other (db : CacheDB) (k : Str) (r : ThinkResult) (md : Option CacheMeta)
    (dttl now : Int) (k' : Str) (hfa : r.action = "final_answer") (hk' : ¬ k' = k) :
    (CacheManager.set db k r none md dttl now).find? (fun row => decide (row.key = k')) =
      db.find? (fun row => decide (row.key = k')) := by
  rw [set_final_eq db k r md dttl now hfa, List.find?_append, find?_filter_other db hk']
  simp [Ne.symm hk']

/-- A get whose row is unexpired and deserializable returns its value. -/
theorem get_of_find?_json (db : CacheDB) (k : Str) (now : Int) (row : CacheRow)
    (r : ThinkResult) (hf : db.find? (fun rr => decide (rr.key = k)) = some row)
    (hnx : ¬ row.expires_at < now) (hv : row.value = .json r) :
    (CacheManager.get db k now).1 = some r := by
  simp only [CacheManager.get, hf]
  rw [if_neg hnx, hv]

/-- Evaluation of think on a context-key hit. -/
theorem think_ctx_hit (h g : Str → Str) (dttl now : Int) (produced : ThinkResult)
    (st : BrainState) (q : Str) (v : ThinkResult) (cko : Option Str) (xk : Str)
    (sc : String) (conf : Nat)
    (hkr : SmartKeyGenerator.generate_keys h g 5 st.user_id st.conversation_id q
      st.conversation_history st.system_prompt_hash =
      { content_key := cko, context_key := some xk, scope := sc, confidence := conf })
    (hbl : ¬ sc = "blacklisted")
    (hhit : (CacheManager.get st.cache xk now).1 = some v) :
    CachingBrain.think h g dttl now produced st q =
      { result := v, state := { st with cache := (CacheManager.get st.cache xk now).2 },
        called_producer := false } := by
  have hpair : CacheManager.get st.cache xk now =
      (some v, (CacheManager.get st.cache xk now).2) := by
    rw [← hhit]
  unfold CachingBrain.think
  rw [hkr]
  dsimp only
  rw [if_neg hbl, hpair]

/-- Evaluation of think on a context miss followed by a content-key hit
in shared scope. -/
theorem think_content_hit (h g : Str → Str) (dttl now : Int) (produced : ThinkResult)
    (st : BrainState) (q : Str) (v : ThinkResult) (ck xk : Str) (conf : Nat)
    (hkr : SmartKeyGenerator.generate_keys h g 5 st.user_id st.conversation_id q
      st.conversation_history st.system_prompt_hash =
      { content_key := some ck, context_key := some xk, scope := "shared",
        confidence := conf })
    (hmissX : (CacheManager.get st.cache xk now).1 = none)
    (hhitC : (CacheManager.get (CacheManager.get st.cache xk now).2 ck now).1 = some v) :
    CachingBrain.think h g dttl now produced st q =
      { result := v,
        state := { st with
                   cache := (CacheManager.get (CacheManager.get st.cache xk now).2 ck now).2 },
        called_producer := false } := by
  have hpairX : CacheManager.get st.cache xk now =
      (none, (CacheManager.get st.cache xk now).2) := by
    rw [← hmissX]
  have hpairC : CacheManager.get (CacheManager.get st.cache xk now).2 ck now =
      (some v, (CacheManager.get (CacheManager.get st.cache xk now).2 ck now).2) := by
    rw [← hhitC]
  unfold CachingBrain.think
  rw [hkr]
  dsimp only
  rw [if_neg (by decide), hpairX]
  dsimp only
  rw [if_pos rfl, hpairC]


/-- Evaluation of think on a full miss (both keys absent) with a
final-answer producer result: the producer is called, the exchange is
appended to the window, and the scope write policy is applied. -/
theorem think_absent_miss_final (h g : Str → Str) (dttl now : Int)
    (produced : ThinkResult) (st : BrainState) (q : Str) (ck xk : Str)
    (sc : String) (conf : Nat)
    (hkr : SmartKeyGenerator.generate_keys h g 5 st.user_id st.conversation_id q
      st.conversation_history st.system_prompt_hash =
      { content_key := some ck, context_key := some xk, scope := sc, confidence := conf })
    (hbl : ¬ sc = "blacklisted")
    (habsX : st.cache.find? (fun r => decide (r.key = xk)) = none)
    (habsC : st.cache.find? (fun r => decide (r.key = ck)) = none)
    (hfa : produced.action = "final_answer") :
    CachingBrain.think h g dttl now produced st q =
      { result := produced,
        state := { st with
                   cache :=
                     if sc = "shared" then
                       (if 70 ≤ conf then
                         CacheManager.set
                           (CacheManager.set st.cache ck produced none
                             (some { user_id := st.user_id, scope := sc,
                                     query := q.take 50 }) dttl now)
                           xk produced none
                           (some { user_id := st.user_id, scope := sc,
                                   query := q.take 50 }) dttl now
                        else
                         CacheManager.set st.cache ck produced none
                           (some { user_id := st.user_id, scope := sc,
                                   query := q.take 50 }) dttl now)
                     else if sc = "contextual" then
                       CacheManager.set st.cache xk produced none
                         (some { user_id := st.user_id, scope := sc,
                                 query := q.take 50 }) dttl now
                     else st.cache,
                   conversation_history := st.conversation_history ++
                     [{ role := "user".data, content := q },
                      { role := "assistant".data,
                        content := produced.content.take 200 }] },
        called_producer := true } := by
  unfold CachingBrain.think CachingBrain.call_and_record
  rw [hkr]
  dsimp only
  rw [if_neg hbl, get_absent st.cache xk now habsX]
  dsimp only
  rw [get_absent st.cache ck now habsC, ite_self]
  dsimp only
  rw [if_pos hfa]




/-! ### Claim C2 -/

/-- C2: on a cache miss (both keys absent) whose produced result has
action final_answer, the write policy of think is: for shared scope the
result is stored under the content key, and additionally under the
context key exactly when confidence is at least 0.7; for contextual
scope it is stored under the context key only, and the content key is
never written. -/
theorem C2_write_policy (h g : Str → Str) (dttl now : Int) (produced : ThinkResult)
    (st : BrainState) (q : Str) (ck xk : Str) (sc : String) (conf : Nat)
    (hkr : SmartKeyGenerator.generate_keys h g 5 st.user_id st.conversation_id q
      st.conversation_history st.system_prompt_hash =
      { content_key := some ck, context_key := some xk, scope := sc, confidence := conf })
    (habsC : st.cache.find? (fun r => decide (r.key = ck)) = none)
    (habsX : st.cache.find? (fun r => decide (r.key = xk)) = none)
    (hfa : produced.action = "final_answer")
    (hd : 0 < dttl) :
    (sc = "shared" →
      (CacheManager.get (CachingBrain.think h g dttl now produced st q).state.cache
        ck now).1 = some produced ∧
      (70 ≤ conf →
        (CacheManager.get (CachingBrain.think h g dttl now produced st q).state.cache
          xk now).1 = some produced) ∧
      (conf < 70 →
        (CachingBrain.think h g dttl now produced st q).state.cache.find?
          (fun r => decide (r.key = xk)) = none)) ∧
    (sc = "contextual" →
      (CacheManager.get (CachingBrain.think h g dttl now produced st q).state.cache
        xk now).1 = some produced ∧
      (CachingBrain.think h g dttl now produced st q).state.cache.find?
        (fun r => decide (r.key = ck)) = none) := by
  have hd2 : ¬ (SmartKeyGenerator.detect_scope q st.conversation_history).1 =
      "blacklisted" := by
    intro hd2
    simp only [SmartKeyGenerator.generate_keys] at hkr
    rw [if_pos hd2] at hkr
    simp at hkr
  have hexp := generate_keys_scope_open h g 5 st.user_id st.conversation_id q
    st.conversation_history st.system_prompt_hash hd2
  have hEq := hexp.symm.trans hkr
  have hck_eq : "content:".data ++
      h (st.system_prompt_hash.take 8 ++ '|' :: SmartKeyGenerator.normalize_query q) =
      ck := by
    have hc := congrArg KeyResult.content_key hEq
    simpa using hc
  have hxk_eq : "context:".data ++
      h (st.user_id ++ '|' :: (st.conversation_id ++ '|' ::
        (SmartKeyGenerator.normalize_history_hash g 5 st.conversation_history ++
          '|' :: SmartKeyGenerator.normalize_query q))) = xk := by
    have hc := congrArg KeyResult.context_key hEq
    simpa using hc
  have hckxk : ¬ ck = xk := by
    rw [← hck_eq, ← hxk_eq]
    exact content_tag_ne_context_tag _ _
  have hbl2 : ¬ sc = "blacklisted" := by
    have hs := congrArg KeyResult.scope hEq
    simp only at hs
    exact fun hcontra => hd2 (hs.trans hcontra)
  rw [think_absent_miss_final h g dttl now produced st q ck xk sc conf hkr hbl2
    habsX habsC hfa]
  dsimp only
  constructor
  · intro hsc
    subst hsc
    rw [if_pos rfl]
    refine ⟨?_, ?_, ?_⟩
    · by_cases h70 : 70 ≤ conf
      · rw [if_pos h70]
        exact get_of_find?_json _ ck now _ produced
          (by rw [find?_set_other _ xk produced _ dttl now ck hfa hckxk,
                find?_set_same _ ck produced _ dttl now hfa])
          (show ¬ now + dttl < now by omega) rfl
      · rw [if_neg h70]
        exact get_of_find?_json _ ck now _ produced
          (find?_set_same _ ck produced _ dttl now hfa)
          (show ¬ now + dttl < now by omega) rfl
    · intro h70
      rw [if_pos h70]
      exact get_of_find?_json _ xk now _ produced
        (find?_set_same _ xk produced _ dttl now hfa)
        (show ¬ now + dttl < now by omega) rfl
    · intro h70lt
      rw [if_neg (by omega : ¬ 70 ≤ conf)]
      rw [find?_set_other st.cache ck produced _ dttl now xk hfa
        (fun hh => hckxk hh.symm)]
      exact habsX
  · intro hsc
    subst hsc
    rw [if_neg (by decide), if_pos rfl]
    constructor
    · exact get_of_find?_json _ xk now _ produced
        (find?_set_same st.cache xk produced _ dttl now hfa)
        (show ¬ now + dttl < now by omega) rfl
    · rw [find?_set_other st.cache xk produced _ dttl now ck hfa hckxk]
      exact habsC


/-! ### Claim C10 -/

/-- C10: think never changes the conversation identifier; whenever the
wrapped producer is not invoked the conversation window is unchanged;
and on every cache hit (via the context key, or via the content key for
shared scope) think returns the cached result, does not invoke the
producer, and leaves the conversation window unchanged. -/
theorem C10_cache_hit_frame (h g : Str → Str) (dttl now : Int) (produced : ThinkResult)
    (st : BrainState) (q : Str) :
    (CachingBrain.think h g dttl now produced st q).state.conversation_id =
      st.conversation_id ∧
    ((CachingBrain.think h g dttl now produced st q).called_producer = false →
      (CachingBrain.think h g dttl now produced st q).state.conversation_history =
        st.conversation_history) ∧
    (∀ (v : ThinkResult) (cko : Option Str) (xk : Str) (sc : String) (conf : Nat),
      SmartKeyGenerator.generate_keys h g 5 st.user_id st.conversation_id q
        st.conversation_history st.system_prompt_hash =
        { content_key := cko, context_key := some xk, scope := sc, confidence := conf } →
      (CacheManager.get st.cache xk now).1 = some v →
      (CachingBrain.think h g dttl now produced st q).result = v ∧
      (CachingBrain.think h g dttl now produced st q).called_producer = false ∧
      (CachingBrain.think h g dttl now produced st q).state.conversation_history =
        st.conversation_history) ∧
    (∀ (v : ThinkResult) (ck xk : Str) (conf : Nat),
      SmartKeyGenerator.generate_keys h g 5 st.user_id st.conversation_id q
        st.conversation_history st.system_prompt_hash =
        { content_key := some ck, context_key := some xk, scope := "shared",
          confidence := conf } →
      (CacheManager.get st.cache xk now).1 = none →
      (CacheManager.get (CacheManager.get st.cache xk now).2 ck now).1 = some v →
      (CachingBrain.think h g dttl now produced st q).result = v ∧
      (CachingBrain.think h g dttl now produced st q).called_producer = false ∧
      (CachingBrain.think h g dttl now produced st q).state.conversation_history =
        st.conversation_history) := by
  have h12 : (CachingBrain.think h g dttl now produced st q).state.conversation_id =
      st.conversation_id ∧
      ((CachingBrain.think h g dttl now produced st q).called_producer = false →
        (CachingBrain.think h g dttl now produced st q).state.conversation_history =
          st.conversation_history) := by
    rcases think_cases h g dttl now produced st q with ⟨v, db, he⟩ | ⟨db3, he⟩ <;> rw [he]
    · exact ⟨rfl, fun _ => rfl⟩
    · exact ⟨rfl, fun hfalse => absurd hfalse (by simp)⟩
  refine ⟨h12.1, h12.2, ?_, ?_⟩
  · intro v cko xk sc conf hkr hhit
    have hd2 : ¬ (SmartKeyGenerator.detect_scope q st.conversation_history).1 =
        "blacklisted" := by
      intro hd2
      simp only [SmartKeyGenerator.generate_keys] at hkr
      rw [if_pos hd2] at hkr
      simp at hkr
    have hexp := generate_keys_scope_open h g 5 st.user_id st.conversation_id q
      st.conversation_history st.system_prompt_hash hd2
    have hbl2 : ¬ sc = "blacklisted" := by
      have hs := congrArg KeyResult.scope (hexp.symm.trans hkr)
      simp only at hs
      exact fun hcontra => hd2 (hs.trans hcontra)
    rw [think_ctx_hit h g dttl now produced st q v cko xk sc conf hkr hbl2 hhit]
    exact ⟨rfl, rfl, rfl⟩
  · intro v ck xk conf hkr hmx hhc
    rw [think_content_hit h g dttl now produced st q v ck xk conf hkr hmx hhc]
    exact ⟨rfl, rfl, rfl⟩

/-- C2 witness: a concrete shared high-confidence miss writes both
keys. -/
theorem C2_write_policy_witness :
    (SmartKeyGenerator.generate_keys id id 5 "u1".data "c1".data "css is html".data []
      "".data =
      { content_key := some "content:|css is html".data,
        context_key := some "context:u1|c1|empty|css is html".data,
        scope := "shared", confidence := 90 }) ∧
    (CacheManager.get
      (CachingBrain.think id id 86400 0
        { action := "final_answer", content := "ans".data }
        { cache := [], user_id := "u1".data, conversation_id := "c1".data,
          conversation_history := [], system_prompt_hash := "".data }
        "css is html".data).state.cache
      "content:|css is html".data 0).1 =
      some { action := "final_answer", content := "ans".data } ∧
    (CacheManager.get
      (CachingBrain.think id id 86400 0
        { action := "final_answer", content := "ans".data }
        { cache := [], user_id := "u1".data, conversation_id := "c1".data,
          conversation_history := [], system_prompt_hash := "".data }
        "css is html".data).state.cache
      "context:u1|c1|empty|css is html".data 0).1 =
      some { action := "final_answer", content := "ans".data } :=
  ⟨by decide,
   ((C2_write_policy id id 86400 0
      { action := "final_answer", content := "ans".data }
      { cache := [], user_id := "u1".data, conversation_id := "c1".data,
        conversation_history := [], system_prompt_hash := "".data }
      "css is html".data "content:|css is html".data
      "context:u1|c1|empty|css is html".data "shared" 90
      (by decide) (by decide) (by decide) (by decide) (by decide)).1 rfl).1,
   (((C2_write_policy id id 86400 0
      { action := "final_answer", content := "ans".data }
      { cache := [], user_id := "u1".data, conversation_id := "c1".data,
        conversation_history := [], system_prompt_hash := "".data }
      "css is html".data "content:|css is html".data
      "context:u1|c1|empty|css is html".data "shared" 90
      (by decide) (by decide) (by decide) (by decide) (by decide)).1 rfl).2.1 (by decide))⟩

/-- C10 witness: a concrete context-key hit returns the cached value
without invoking the producer. -/
theorem C10_cache_hit_frame_witness :
    (SmartKeyGenerator.generate_keys id id 5 "u1".data "c1".data "css is html".data []
      "".data =
      { content_key := some "content:|css is html".data,
        context_key := some "context:u1|c1|empty|css is html".data,
        scope := "shared", confidence := 90 }) ∧
    ((CacheManager.get
      [{ key := "context:u1|c1|empty|css is html".data,
         value := .json { action := "final_answer", content := "cached".data },
         created_at := 0, expires_at := 100, metadata := none }]
      "context:u1|c1|empty|css is html".data 50).1 =
      some { action := "final_answer", content := "cached".data }) ∧
    (CachingBrain.think id id 86400 50
      { action := "final_answer", content := "prod".data }
      { cache := [{ key := "context:u1|c1|empty|css is html".data,
                    value := .json { action := "final_answer", content := "cached".data },
                    created_at := 0, expires_at := 100, metadata := none }],
        user_id := "u1".data, conversation_id := "c1".data,
        conversation_history := [], system_prompt_hash := "".data }
      "css is html".data).result =
      { action := "final_answer", content := "cached".data } ∧
    (CachingBrain.think id id 86400 50
      { action := "final_answer", content := "prod".data }
      { cache := [{ key := "context:u1|c1|empty|css is html".data,
                    value := .json { action := "final_answer", content := "cached".data },
                    created_at := 0, expires_at := 100, metadata := none }],
        user_id := "u1".data, conversation_id := "c1".data,
        conversation_history := [], system_prompt_hash := "".data }
      "css is html".data).called_producer = false :=
  ⟨by decide, by decide,
   ((C10_cache_hit_frame id id 86400 50
      { action := "final_answer", content := "prod".data }
      { cache := [{ key := "context:u1|c1|empty|css is html".data,
                    value := .json { action := "final_answer", content := "cached".data },
                    created_at := 0, expires_at := 100, metadata := none }],
        user_id := "u1".data, conversation_id := "c1".data,
        conversation_history := [], system_prompt_hash := "".data }
      "css is html".data).2.2.1
      { action := "final_answer", content := "cached".data }
      (some "content:|css is html".data)
      "context:u1|c1|empty|css is html".data "shared" 90
      (by decide) (by decide)).1,
   ((C10_cache_hit_frame id id 86400 50
      { action := "final_answer", content := "prod".data }
      { cache := [{ key := "context:u1|c1|empty|css is html".data,
                    value := .json { action := "final_answer", content := "cached".data },
                    created_at := 0, expires_at := 100, metadata := none }],
        user_id := "u1".data, conversation_id := "c1".data,
        conversation_history := [], system_prompt_hash := "".data }
      "css is html".data).2.2.1
      { action := "final_answer", content := "cached".data }
      (some "content:|css is html".data)
      "context:u1|c1|empty|css is html".data "shared" 90
      (by decide) (by decide)).2.1⟩

/-! ### Normalization lemmas for claim C6 -/

/-- The string ends (in the sense of its last character) in a character
satisfying `p`. -/
def endsP (p : Char → Bool) : Str → Bool
  | [] => false
  | [c] => p c
  | _ :: c :: rest => endsP p (c :: rest)

/-- The last character of a longer string ignores the head. -/
theorem endsP_cons_of_ne_nil (p : Char → Bool) (c : Char) (l : Str) (hl : l ≠ []) :
    endsP p (c :: l) = endsP p l := by
  cases l with
  | nil => exact absurd rfl hl
  | cons d r => rfl

/-- Lowercasing never yields an upper case ASCII letter. -/
theorem lowerChar_not_upper (c : Char) :
    ¬ (65 ≤ (lowerChar c).toNat ∧ (lowerChar c).toNat ≤ 90) := by
  unfold lowerChar
  by_cases h : 65 ≤ c.toNat ∧ c.toNat ≤ 90
  · rw [dif_pos h]
    have hv : (Char.ofNatAux (c.toNat + 32) (Or.inl (by omega))).toNat = c.toNat + 32 := rfl
    rw [hv]
    omega
  · rw [dif_neg h]
    exact h

/-- Lowercasing one character is idempotent. -/
theorem lowerChar_idem (c : Char) : lowerChar (lowerChar c) = lowerChar c := by
  by_cases hc : 65 ≤ c.toNat ∧ c.toNat ≤ 90
  · have h1 : lowerChar c = Char.ofNatAux (c.toNat + 32) (Or.inl (by omega)) := dif_pos hc
    rw [h1]
    have hv : (Char.ofNatAux (c.toNat + 32) (Or.inl (by omega : c.toNat + 32 < 55296))).toNat
        = c.toNat + 32 := rfl
    exact dif_neg (by rw [hv]; omega)
  · have h1 : lowerChar c = c := dif_neg hc
    rw [h1]
    exact h1

/-- Characters surviving dropWhile come from the input. -/
theorem mem_of_dropWhile (p : Char → Bool) (l : Str) (c : Char)
    (h : c ∈ l.dropWhile p) : c ∈ l := by
  induction l with
  | nil => simp at h
  | cons a rest ih =>
    rw [List.dropWhile_cons] at h
    by_cases ha : p a
    · rw [if_pos ha] at h
      exact List.mem_cons_of_mem a (ih h)
    · rw [if_neg ha] at h
      exact h

/-- Characters surviving dropTrailing come from the input. -/
theorem mem_of_dropTrailing (p : Char → Bool) (l : Str) (c : Char)
    (h : c ∈ dropTrailing p l) : c ∈ l := by
  induction l with
  | nil => simp [dropTrailing] at h
  | cons a rest ih =>
    simp only [dropTrailing] at h
    cases hdt : dropTrailing p rest with
    | nil =>
      rw [hdt] at h
      by_cases ha : p a
      · rw [if_pos ha] at h
        simp at h
      · rw [if_neg ha] at h
        rcases List.mem_singleton.mp h with rfl
        exact List.mem_cons_self _ _
    | cons d r =>
      rw [hdt] at h
      rcases List.mem_cons.mp h with rfl | hdr
      · exact List.mem_cons_self _ _
      · exact List.mem_cons_of_mem a (ih (hdt ▸ hdr))

/-- Characters of a collapsed string are spaces or input characters. -/
theorem mem_of_collapseAux (p : Bool) (l : Str) (c : Char)
    (h : c ∈ collapseAux p l) : c = ' ' ∨ c ∈ l := by
  induction l generalizing p with
  | nil => simp [collapseAux] at h
  | cons a rest ih =>
    simp only [collapseAux] at h
    by_cases ha : pySpace a
    · rw [if_pos ha] at h
      by_cases hp : p
      · rw [if_pos hp] at h
        rcases ih true h with hc | hc
        · exact Or.inl hc
        · exact Or.inr (List.mem_cons_of_mem a hc)
      · rw [if_neg hp] at h
        rcases List.mem_cons.mp h with rfl | hrest
        · exact Or.inl rfl
        · rcases ih true hrest with hc | hc
          · exact Or.inl hc
          · exact Or.inr (List.mem_cons_of_mem a hc)
    · rw [if_neg ha] at h
      rcases List.mem_cons.mp h with rfl | hrest
      · exact Or.inr (List.mem_cons_self _ _)
      · rcases ih false hrest with hc | hc
        · exact Or.inl hc
        · exact Or.inr (List.mem_cons_of_mem a hc)

/-- Mapping a function that fixes every member is the identity. -/
theorem map_fixed_eq_self (f : Char → Char) (l : Str) (h : ∀ c ∈ l, f c = c) :
    l.map f = l := by
  induction l with
  | nil => rfl
  | cons a rest ih =>
    rw [List.map_cons, h a (List.mem_cons_self _ _),
      ih (fun c hc => h c (List.mem_cons_of_mem a hc))]

/-- Every character of a normalized query is already lower case. -/
theorem normalize_chars_lower_fixed (s : Str) (c : Char)
    (h : c ∈ SmartKeyGenerator.normalize_query s) : lowerChar c = c := by
  rcases mem_of_collapseAux false _ c h with rfl | h1
  · decide
  · have h2 := mem_of_dropTrailing isPunctEnd _ c h1
    have h3 := mem_of_dropTrailing pySpace _ c h2
    have h4 := mem_of_dropWhile pySpace _ c h3
    rcases List.mem_map.mp h4 with ⟨d, _, rfl⟩
    exact lowerChar_idem d

/-- Whitespace collapsing is idempotent. -/
theorem collapseAux_idem (l : Str) : ∀ b, collapseAux b (collapseAux b l) = collapseAux b l := by
  induction l with
  | nil => intro b; rfl
  | cons a rest ih =>
    intro b
    by_cases ha : pySpace a
    · by_cases hb : b
      · subst hb
        simp only [collapseAux, if_pos ha, if_pos rfl]
        exact ih true
      · have hb2 : b = false := by simpa using hb
        subst hb2
        simp only [collapseAux, if_pos ha, if_neg (by simp : ¬ (false = true))]
        simp only [collapseAux, if_pos (show pySpace ' ' = true by decide), if_pos rfl]
        rw [ih true]
    · simp only [collapseAux, if_neg ha]
      rw [ih false]

/-- Collapsing with a fresh flag never empties a non-empty string. -/
theorem collapseAux_ne_nil (l : Str) (hl : l ≠ []) : collapseAux false l ≠ [] := by
  cases l with
  | nil => exact absurd rfl hl
  | cons a rest =>
    simp only [collapseAux]
    by_cases ha : pySpace a
    · rw [if_pos ha]
      simp
    · rw [if_neg ha]
      simp


/-- The string does not start with a whitespace character. -/
def noLeadSpace : Str → Bool
  | [] => true
  | c :: _ => !(pySpace c)

/-- Dropping leading whitespace leaves no leading whitespace. -/
theorem noLeadSpace_dropWhile (l : Str) : noLeadSpace (l.dropWhile pySpace) = true := by
  induction l with
  | nil => rfl
  | cons a rest ih =>
    rw [List.dropWhile_cons]
    by_cases ha : pySpace a
    · rw [if_pos ha]
      exact ih
    · rw [if_neg ha]
      simp [noLeadSpace, ha]

/-- dropTrailing cannot create leading whitespace. -/
theorem noLeadSpace_dropTrailing (p : Char → Bool) (l : Str)
    (h : noLeadSpace l = true) : noLeadSpace (dropTrailing p l) = true := by
  cases l with
  | nil => rfl
  | cons a rest =>
    simp only [dropTrailing]
    cases hdt : dropTrailing p rest with
    | nil =>
      by_cases ha : p a
      · rw [if_pos ha]
        rfl
      · rw [if_neg ha]
        exact h
    | cons d r => exact h

/-- Collapsing cannot create leading whitespace. -/
theorem noLeadSpace_collapse (l : Str) (h : noLeadSpace l = true) :
    noLeadSpace (collapseWS l) = true := by
  cases l with
  | nil => rfl
  | cons a rest =>
    have ha : ¬ pySpace a = true := by simp [noLeadSpace] at h; simp [h]
    simp only [collapseWS, collapseAux, if_neg ha]
    simp [noLeadSpace, ha]

/-- dropWhile is the identity on strings without leading whitespace. -/
theorem dropWhile_eq_self_of_noLead (l : Str) (h : noLeadSpace l = true) :
    l.dropWhile pySpace = l := by
  cases l with
  | nil => rfl
  | cons a rest =>
    have ha : ¬ pySpace a = true := by simp [noLeadSpace] at h; simp [h]
    rw [List.dropWhile_cons, if_neg ha]

/-- After dropTrailing, the string no longer ends in the dropped
class. -/
theorem endsP_dropTrailing (p : Char → Bool) (l : Str) :
    endsP p (dropTrailing p l) = false := by
  induction l with
  | nil => rfl
  | cons a rest ih =>
    simp only [dropTrailing]
    cases hdt : dropTrailing p rest with
    | nil =>
      by_cases ha : p a
      · rw [if_pos ha]
        rfl
      · rw [if_neg ha]
        simpa [endsP] using ha
    | cons d r =>
      rw [endsP_cons_of_ne_nil p a (d :: r) (by simp)]
      rw [← hdt]
      exact ih

/-- If a collapsed string ends in a non-space class, so did its
input. -/
theorem endsP_collapseAux (p : Char → Bool) (hsp : p ' ' = false) (l : Str) :
    ∀ b, endsP p (collapseAux b l) = true → endsP p l = true := by
  induction l with
  | nil => intro b h; simp [collapseAux, endsP] at h
  | cons a rest ih =>
    intro b h
    by_cases ha : pySpace a
    · by_cases hb : b
      · subst hb
        simp only [collapseAux, if_pos ha, if_pos rfl] at h
        have hrest := ih true h
        have hne : rest ≠ [] := by
          intro hnil
          subst hnil
          simp [endsP] at hrest
        rw [endsP_cons_of_ne_nil p a rest hne]
        exact hrest
      · have hb2 : b = false := by simpa using hb
        subst hb2
        simp only [collapseAux, if_pos ha, if_neg (by simp : ¬ (false = true))] at h
        cases hX : collapseAux true rest with
        | nil =>
          rw [hX] at h
          simp only [endsP] at h
          rw [hsp] at h
          simp at h
        | cons d r =>
          rw [hX] at h
          rw [endsP_cons_of_ne_nil p ' ' (d :: r) (by simp)] at h
          rw [← hX] at h
          have hrest := ih true h
          have hne : rest ≠ [] := by
            intro hnil
            subst hnil
            simp [endsP] at hrest
          rw [endsP_cons_of_ne_nil p a rest hne]
          exact hrest
    · simp only [collapseAux, if_neg ha] at h
      cases hX : collapseAux false rest with
      | nil =>
        rw [hX] at h
        have hrest_nil : rest = [] := by
          by_contra hne
          exact collapseAux_ne_nil rest hne hX
        subst hrest_nil
        simpa [endsP] using h
      | cons d r =>
        rw [hX] at h
        rw [endsP_cons_of_ne_nil p a (d :: r) (by simp)] at h
        rw [← hX] at h
        have hrest := ih false h
        have hne : rest ≠ [] := by
          intro hnil
          subst hnil
          simp [endsP] at hrest
        rw [endsP_cons_of_ne_nil p a rest hne]
        exact hrest

/-- dropTrailing is the identity when the string does not end in the
dropped class. -/
theorem dropTrailing_eq_self_of_ends_false (p : Char → Bool) (l : Str)
    (h : endsP p l = false) : dropTrailing p l = l := by
  induction l with
  | nil => rfl
  | cons a rest ih =>
    cases hrest : rest with
    | nil =>
      subst hrest
      simp only [endsP] at h
      simp only [dropTrailing]
      rw [if_neg (by simp [h])]
    | cons d r =>
      subst hrest
      rw [endsP_cons_of_ne_nil p a (d :: r) (by simp)] at h
      have hdt := ih h
      show (match dropTrailing p (d :: r) with
            | [] => if p a then [] else [a]
            | e :: r2 => a :: e :: r2) = a :: d :: r
      rw [hdt]


/-! ### Claim C6 -/

/-- C6 counterexample: normalize_query is not idempotent.  Stripping the
trailing punctuation of `a !` exposes a trailing space that the earlier
strip can no longer remove: the first pass gives `a ` and only the
second pass gives `a`. -/
theorem C6_normalize_not_idempotent :
    SmartKeyGenerator.normalize_query (SmartKeyGenerator.normalize_query "a !".data) ≠
      SmartKeyGenerator.normalize_query "a !".data := by
  decide

/-- C6 amended: normalize_query lowercases, strips trailing
punctuation, collapses internal whitespace, and maps `  Foo?  ` to
`foo`; it is idempotent on every string whose normal form does not end
in a space.  (Idempotence fails exactly when stripping the trailing
punctuation exposes a trailing space, as in the counterexample.) -/
theorem C6_normalize_idempotence_amended (s : Str)
    (h : endsP pySpace (SmartKeyGenerator.normalize_query s) = false) :
    SmartKeyGenerator.normalize_query (SmartKeyGenerator.normalize_query s) =
      SmartKeyGenerator.normalize_query s ∧
    SmartKeyGenerator.normalize_query "  Foo?  ".data = "foo".data := by
  refine ⟨?_, by decide⟩
  have hlow : lowerStr (SmartKeyGenerator.normalize_query s) =
      SmartKeyGenerator.normalize_query s :=
    map_fixed_eq_self lowerChar _ (normalize_chars_lower_fixed s)
  have hnl : noLeadSpace (SmartKeyGenerator.normalize_query s) = true := by
    have h1 := noLeadSpace_dropWhile (lowerStr s)
    have h2 := noLeadSpace_dropTrailing pySpace _ h1
    have h3 := noLeadSpace_dropTrailing isPunctEnd _ h2
    exact noLeadSpace_collapse _ h3
  have hdw : (SmartKeyGenerator.normalize_query s).dropWhile pySpace =
      SmartKeyGenerator.normalize_query s :=
    dropWhile_eq_self_of_noLead _ hnl
  have hdt_space : dropTrailing pySpace (SmartKeyGenerator.normalize_query s) =
      SmartKeyGenerator.normalize_query s :=
    dropTrailing_eq_self_of_ends_false pySpace _ h
  have hpstrip : pyStrip (SmartKeyGenerator.normalize_query s) =
      SmartKeyGenerator.normalize_query s := by
    unfold pyStrip
    rw [hdw, hdt_space]
  have hends_punct : endsP isPunctEnd (SmartKeyGenerator.normalize_query s) = false := by
    cases hB : endsP isPunctEnd (SmartKeyGenerator.normalize_query s) with
    | false => rfl
    | true =>
      have h1 := endsP_collapseAux isPunctEnd (by decide)
        (dropTrailing isPunctEnd (pyStrip (lowerStr s))) false hB
      have h2 := endsP_dropTrailing isPunctEnd (pyStrip (lowerStr s))
      rw [h2] at h1
      exact absurd h1 (by simp)
  have hdt_punct : dropTrailing isPunctEnd (SmartKeyGenerator.normalize_query s) =
      SmartKeyGenerator.normalize_query s :=
    dropTrailing_eq_self_of_ends_false isPunctEnd _ hends_punct
  have hcoll : collapseWS (SmartKeyGenerator.normalize_query s) =
      SmartKeyGenerator.normalize_query s := by
    have hq : SmartKeyGenerator.normalize_query s =
        collapseAux false (dropTrailing isPunctEnd (pyStrip (lowerStr s))) := rfl
    rw [hq]
    exact collapseAux_idem _ false
  calc SmartKeyGenerator.normalize_query (SmartKeyGenerator.normalize_query s)
      = collapseWS (dropTrailing isPunctEnd
          (pyStrip (lowerStr (SmartKeyGenerator.normalize_query s)))) := rfl
    _ = collapseWS (dropTrailing isPunctEnd
          (pyStrip (SmartKeyGenerator.normalize_query s))) := by rw [hlow]
    _ = collapseWS (dropTrailing isPunctEnd (SmartKeyGenerator.normalize_query s)) := by
          rw [hpstrip]
    _ = collapseWS (SmartKeyGenerator.normalize_query s) := by rw [hdt_punct]
    _ = SmartKeyGenerator.normalize_query s := hcoll

/-- C6 witness: the specification example string. -/
theorem C6_normalize_idempotence_amended_witness :
    (endsP pySpace (SmartKeyGenerator.normalize_query "  Foo?  ".data) = false) ∧
    SmartKeyGenerator.normalize_query (SmartKeyGenerator.normalize_query "  Foo?  ".data) =
      SmartKeyGenerator.normalize_query "  Foo?  ".data ∧
    SmartKeyGenerator.normalize_query "  Foo?  ".data = "foo".data :=
  ⟨by decide,
   (C6_normalize_idempotence_amended "  Foo?  ".data (by decide)).1,
   (C6_normalize_idempotence_amended "  Foo?  ".data (by decide)).2⟩

end Gema
